import Mathlib

/-!
Verification of the event-hook logic of `src/game.js` (a matter.js-based
slingshot game).  The three hooks installed in the `Game` constructor —
`beforeUpdate`, `afterUpdate` and `collisionStart` — are shallowly embedded
here.  Bodies live in an arena: a store mapping numeric ids to body records,
together with the list of top-level body ids currently in the world
(`Matter.Composite.allBodies`).  Parts and parents are ids into the same
store, which faithfully reproduces the aliasing in the JavaScript code
(`body.parent` may be `body` itself, so `parent.shockAbsorbed` and
`body.shockAbsorbed` can be the same mutable field).

Numeric fields use exact rationals; `shockAbsorbed` is `Option ℕ`, where
`none` models the JavaScript `undefined` of a body that was never touched by
the collision hook (`undefined > 500` is `false`, and `undefined || 0` is
`0`, exactly as `Option.getD 0` behaves below).
-/

namespace Game

/-- A 2-d vector with exact rational coordinates (`Matter.Vector`). -/
structure Vec where
  x : ℚ
  y : ℚ
  deriving DecidableEq, Repr

/-- Componentwise scaling, `Matter.Vector.mult(v, k)`. -/
def Vec.mult (v : Vec) (k : ℚ) : Vec := ⟨v.x * k, v.y * k⟩

/-- Componentwise difference, `Matter.Vector.sub(a, b)`. -/
def Vec.sub (a b : Vec) : Vec := ⟨a.x - b.x, a.y - b.y⟩

/-- A body record, holding exactly the fields of a matter.js body that the
hooks in `src/game.js` read or write.  `parts` and `parent` are ids into the
world's store. -/
structure Body where
  label : String
  isStatic : Bool
  mass : ℚ
  velocity : Vec
  velocityPrev : Vec
  shockAbsorbed : Option ℕ
  parts : List ℕ
  parent : ℕ
  angle : ℚ
  isSleeping : Bool
  deriving DecidableEq, Repr

/-- The arena of body records: every id denotes a record, whether or not the
body is currently in the world. -/
def Store : Type := ℕ → Body

/-- The simulation world: the body store plus the ids of the top-level
bodies currently in the world (what `Matter.Composite.allBodies` lists). -/
structure World where
  store : Store
  alive : List ℕ

/-- Point update of the store at one id. -/
def Store.set (s : Store) (i : ℕ) (b : Body) : Store :=
  fun j => if j = i then b else s j

/-- Math.floor of the euclidean magnitude of `v`,
`Math.floor(Matter.Vector.magnitude(v))`.  For a rational vector this floor
equals `Nat.sqrt` of the floor of the squared magnitude; the adequacy lemma
`floorMag_eq_floor_sqrt` below proves that this definition agrees with
`⌊Real.sqrt (x² + y²)⌋`. -/
def floorMag (v : Vec) : ℕ :=
  Nat.sqrt ⌊v.x ^ 2 + v.y ^ 2⌋.toNat

/-- The floored shock magnitude the collision hook computes for a pair
`(a, b)`: each body's momentum is `velocityPrev * mass` with mass `0` when
the body is static, and the shock is the floored magnitude of the momentum
difference (lines 70–72 of `src/game.js`). -/
def pairMag (s : Store) (a b : ℕ) : ℕ :=
  let momentumA := Vec.mult (s a).velocityPrev (if (s a).isStatic then 0 else (s a).mass)
  let momentumB := Vec.mult (s b).velocityPrev (if (s b).isStatic then 0 else (s b).mass)
  floorMag (Vec.sub momentumA momentumB)

/-- Overwrite only the `shockAbsorbed` field of body `i`. -/
def setShock (s : Store) (i : ℕ) (v : Option ℕ) : Store :=
  Store.set s i { s i with shockAbsorbed := v }

/-- Lazy initialisation `x.shockAbsorbed = x.shockAbsorbed || 0`. -/
def initShock (s : Store) (i : ℕ) : Store :=
  setShock s i (some ((s i).shockAbsorbed.getD 0))

/-- Increment `x.shockAbsorbed += v` (the field is a number at this point,
having just been initialised; `getD 0` reads that number). -/
def addShock (s : Store) (i : ℕ) (v : ℕ) : Store :=
  setShock s i (some ((s i).shockAbsorbed.getD 0 + v))

/-- The four statements the collision hook runs for one body of a pair
(lines 73–76 for bodyA, 78–81 for bodyB of `src/game.js`): initialise the
body's `shockAbsorbed`, add the floored shock magnitude, initialise the
parent's `shockAbsorbed`, then add the body's entire just-incremented total
to the parent.  Mutations happen in statement order on the shared store, so
a body that is its own parent receives both additions on the same field. -/
def hitBody (s : Store) (i : ℕ) (mag : ℕ) : Store :=
  let s1 := initShock s i
  let s2 := addShock s1 i mag
  let p := (s2 i).parent
  let s3 := initShock s2 p
  addShock s3 p ((s3 i).shockAbsorbed.getD 0)

/-- Processing of one collision pair: both momenta and the shock magnitude
are computed before any mutation, then bodyA's and bodyB's accumulations run
in order (lines 70–81 of `src/game.js`). -/
def collidePair (s : Store) (a b : ℕ) : Store :=
  let mag := pairMag s a b
  hitBody (hitBody s a mag) b mag

/-- The `collisionStart` handler (lines 68–83 of `src/game.js`): fold the
pair-processing over `event.pairs`.  Only the store is touched; the world's
body list is untouched. -/
def collisionStart (w : World) (pairs : List (ℕ × ℕ)) : World :=
  { w with store := pairs.foldl (fun s pr => collidePair s pr.1 pr.2) w.store }

/-- Removal of a body from the world, `Matter.Composite.remove(world, body,
true)`.  The engine primitive (an external collaborator, per the spec
consumed as-is) deletes the body from the world's body collection; the store
record itself is untouched. -/
def removeBody (w : World) (i : ℕ) : World :=
  { w with alive := w.alive.filter (fun j => j ≠ i) }

/-- Processing of one part by the `beforeUpdate` handler (lines 41–45 of
`src/game.js`): a sleeping part labelled "Projectile" is removed from the
world and nothing else is done to it; any other part gets its current
velocity recorded into `velocityPrev`. -/
def stepPart (w : World) (pid : ℕ) : World :=
  let p := w.store pid
  if p.label = "Projectile" ∧ p.isSleeping then
    removeBody w pid
  else
    { w with store := Store.set w.store pid { p with velocityPrev := p.velocity } }

/-- Processing of one body by the `beforeUpdate` handler: iterate
`stepPart` over `body.parts` (read from the current store; the hooks never
mutate a `parts` list). -/
def stepBody (w : World) (bid : ℕ) : World :=
  (w.store bid).parts.foldl stepPart w

/-- The `beforeUpdate` handler (lines 37–48 of `src/game.js`): the body list
is snapshot by `Matter.Composite.allBodies` before the loop, so the fold
runs over `w.alive` as it was when the handler fired, even as removals
shrink the live list. -/
def beforeUpdate (w : World) : World :=
  w.alive.foldl stepBody w

/-- Overwrite only the `angle` field of body `i`. -/
def setAngle (w : World) (i : ℕ) (a : ℚ) : World :=
  { w with store := Store.set w.store i { w.store i with angle := a } }

/-- Angle synchronisation for one compound body (lines 53–57 of
`src/game.js`): each part's angle is set to the body's angle, the latter
re-read from the store at every iteration exactly as the JavaScript re-reads
`body.angle` through the reference. -/
def syncAngles (w : World) (bid : ℕ) : World :=
  if (w.store bid).parts.length > 1 then
    (w.store bid).parts.foldl (fun w pid => setAngle w pid ((w.store bid).angle)) w
  else w

/-- The JavaScript test `body.shockAbsorbed > 500`: comparison with the
`undefined` of a never-initialised field is `false`. -/
def shockExceeds (o : Option ℕ) : Bool :=
  match o with
  | none => false
  | some n => 500 < n

/-- Processing of one body by the `afterUpdate` handler (lines 52–63 of
`src/game.js`): sync the angles of a compound body's parts, then remove the
body when it is a "Block" whose accumulated shock exceeds 500. -/
def afterBody (w : World) (bid : ℕ) : World :=
  let w1 := syncAngles w bid
  if (w1.store bid).label = "Block" ∧ shockExceeds (w1.store bid).shockAbsorbed then
    removeBody w1 bid
  else w1

/-- The `afterUpdate` handler (lines 50–64 of `src/game.js`); as in
`beforeUpdate` the body list is snapshot before the loop. -/
def afterUpdate (w : World) : World :=
  w.alive.foldl afterBody w

/-- Modelled from the spec: the engine's own integration step is external
code (matter.js, not in this repository).  Per the spec it may update the
engine-native state of every body — velocity, position, angle, sleep flag —
but `velocityPrev` and `shockAbsorbed` are fields "introduced by this
system — not native to the engine", so integration never writes them. -/
structure EngineUpdate where
  newVelocity : ℕ → Vec
  newAngle : ℕ → ℚ
  newSleeping : ℕ → Bool

/-- Modelled from the spec: applying one engine integration step updates
each body's engine-native fields and leaves `velocityPrev`, `shockAbsorbed`,
`label`, `mass`, `parts`, `parent` and `isStatic` alone. -/
def integrate (u : EngineUpdate) (w : World) : World :=
  { w with store := fun i =>
      { w.store i with
          velocity := u.newVelocity i
          angle := u.newAngle i
          isSleeping := u.newSleeping i } }

/-- A body record with its `shockAbsorbed` field blanked, used to state
that an operation mutates nothing but `shockAbsorbed`. -/
def Body.eraseShock (b : Body) : Body :=
  { b with shockAbsorbed := none }

/-- The ids whose `shockAbsorbed` the collision hook may touch for a given
pair list: the colliding bodies and their parents. -/
def touchedIds (s : Store) : List (ℕ × ℕ) → List ℕ
  | [] => []
  | pr :: rest =>
      pr.1 :: pr.2 :: (s pr.1).parent :: (s pr.2).parent :: touchedIds s rest

/-- A plain simple body used to populate demonstration worlds: a dynamic
unit-mass block at rest that is its own parent. -/
def baseBody : Body :=
  { label := "Block", isStatic := false, mass := 1, velocity := ⟨0, 0⟩,
    velocityPrev := ⟨0, 0⟩, shockAbsorbed := none, parts := [], parent := 0,
    angle := 0, isSleeping := false }

/-- Demonstration store for the collision claims: ids 0 and 1 are the two
colliding parts (masses 2 and 1, `velocityPrev` (3,0) and (0,0)), and ids 2
and 3 are their distinct compound parents. -/
def demoStore : Store := fun i =>
  if i = 0 then { baseBody with parent := 2, mass := 2, velocityPrev := ⟨3, 0⟩ }
  else if i = 1 then { baseBody with parent := 3, mass := 1 }
  else if i = 2 then { baseBody with parent := 2, parts := [2, 0] }
  else if i = 3 then { baseBody with parent := 3, parts := [3, 1] }
  else baseBody

/-- Demonstration world for the collision claims: the two compounds are the
top-level bodies. -/
def demoWorld : World := ⟨demoStore, [2, 3]⟩

/-- Demonstration store for the self-parent claim: id 0 is a simple body
(its own parent), id 1 a distinct simple body. -/
def selfStore : Store := fun i =>
  if i = 0 then { baseBody with parent := 0, parts := [0], mass := 2, velocityPrev := ⟨3, 0⟩ }
  else if i = 1 then { baseBody with parent := 1, parts := [1] }
  else baseBody

/-- Demonstration world for the self-parent claim. -/
def selfWorld : World := ⟨selfStore, [0, 1]⟩

/-- A body record with its `angle` field blanked, used to state that the
angle-synchronisation pass mutates nothing but angles. -/
def Body.eraseAngle (b : Body) : Body :=
  { b with angle := 0 }

/-- Demonstration store for the one-static-body claim: id 0 is a static
body with a nonzero `velocityPrev`, id 1 a dynamic body. -/
def staticStore : Store := fun i =>
  if i = 0 then
    { baseBody with
        isStatic := true, parent := 0, parts := [0], mass := 3, velocityPrev := ⟨5, 7⟩ }
  else if i = 1 then
    { baseBody with
        parent := 1, parts := [1], mass := 2, velocityPrev := ⟨3, 0⟩ }
  else baseBody

/-- Demonstration world for the pre-step claims: id 0 is a sleeping
"Projectile", id 1 an awake "Block"; both simple bodies. -/
def preWorld : World :=
  ⟨fun i =>
    if i = 0 then
      { baseBody with
          label := "Projectile", isSleeping := true, parent := 0, parts := [0],
          velocity := ⟨1, 2⟩, velocityPrev := ⟨9, 9⟩ }
    else if i = 1 then
      { baseBody with
          parent := 1, parts := [1], velocity := ⟨4, 5⟩, velocityPrev := ⟨8, 8⟩ }
    else baseBody,
   [0, 1]⟩

/-- Demonstration world for the post-step claims: id 0 is a compound
"Block" (parts 0, 1, 2) with accumulated shock 501 and angle 30 while its
parts still hold angle 0; id 3 is a simple "Block" whose `shockAbsorbed`
was never initialised. -/
def postWorld : World :=
  ⟨fun i =>
    if i = 0 then
      { baseBody with
          parent := 0, parts := [0, 1, 2], shockAbsorbed := some 501, angle := 30 }
    else if i = 1 then { baseBody with parent := 0 }
    else if i = 2 then { baseBody with parent := 0 }
    else if i = 3 then { baseBody with parent := 3, parts := [3] }
    else baseBody,
   [0, 3]⟩

/-- A concrete engine integration step used to witness the one-step-lag
claim: it moves every body's engine-native state. -/
def demoUpdate : EngineUpdate :=
  ⟨fun _ => ⟨1, 1⟩, fun _ => 7, fun _ => true⟩

theorem Store.set_self (s : Store) (i : ℕ) (b : Body) : Store.set s i b i = b := by
  simp [Store.set]

theorem Store.set_ne (s : Store) (i : ℕ) (b : Body) (j : ℕ) (h : j ≠ i) :
    Store.set s i b j = s j := by
  simp [Store.set, h]

theorem setShock_self (s : Store) (i : ℕ) (v : Option ℕ) :
    setShock s i v i = { s i with shockAbsorbed := v } := by
  simp [setShock, Store.set]

theorem setShock_ne (s : Store) (i : ℕ) (v : Option ℕ) (j : ℕ) (h : j ≠ i) :
    setShock s i v j = s j := by
  simp [setShock, Store.set, h]

theorem setShock_eraseShock (s : Store) (i : ℕ) (v : Option ℕ) (j : ℕ) :
    (setShock s i v j).eraseShock = (s j).eraseShock := by
  by_cases h : j = i
  · subst h; simp [setShock_self, Body.eraseShock]
  · simp [setShock_ne _ _ _ _ h]

theorem initShock_eraseShock (s : Store) (i : ℕ) (j : ℕ) :
    (initShock s i j).eraseShock = (s j).eraseShock := by
  simp [initShock, setShock_eraseShock]

theorem addShock_eraseShock (s : Store) (i : ℕ) (v : ℕ) (j : ℕ) :
    (addShock s i v j).eraseShock = (s j).eraseShock := by
  simp [addShock, setShock_eraseShock]

/-- `hitBody` changes nothing but `shockAbsorbed` fields. -/
theorem hitBody_eraseShock (s : Store) (i : ℕ) (mag : ℕ) (j : ℕ) :
    (hitBody s i mag j).eraseShock = (s j).eraseShock := by
  simp [hitBody, initShock_eraseShock, addShock_eraseShock]

theorem eraseShock_label (b c : Body) (h : b.eraseShock = c.eraseShock) :
    b.label = c.label := by
  have h2 := congrArg Body.label h
  simpa [Body.eraseShock] using h2

theorem eraseShock_velocityPrev (b c : Body) (h : b.eraseShock = c.eraseShock) :
    b.velocityPrev = c.velocityPrev := by
  have h2 := congrArg Body.velocityPrev h
  simpa [Body.eraseShock] using h2

theorem eraseShock_isStatic (b c : Body) (h : b.eraseShock = c.eraseShock) :
    b.isStatic = c.isStatic := by
  have h2 := congrArg Body.isStatic h
  simpa [Body.eraseShock] using h2

theorem eraseShock_mass (b c : Body) (h : b.eraseShock = c.eraseShock) :
    b.mass = c.mass := by
  have h2 := congrArg Body.mass h
  simpa [Body.eraseShock] using h2

theorem eraseShock_parent (b c : Body) (h : b.eraseShock = c.eraseShock) :
    b.parent = c.parent := by
  have h2 := congrArg Body.parent h
  simpa [Body.eraseShock] using h2

/-- The shock magnitude of a pair depends only on the shock-erased bodies;
in particular `hitBody` leaves every pair magnitude unchanged. -/
theorem pairMag_congr (s t : Store) (a b : ℕ)
    (ha : (s a).eraseShock = (t a).eraseShock)
    (hb : (s b).eraseShock = (t b).eraseShock) :
    pairMag s a b = pairMag t a b := by
  unfold pairMag
  rw [eraseShock_velocityPrev _ _ ha, eraseShock_isStatic _ _ ha, eraseShock_mass _ _ ha,
    eraseShock_velocityPrev _ _ hb, eraseShock_isStatic _ _ hb, eraseShock_mass _ _ hb]

/-- Accumulation for one body whose parent is a different body: the body's
`shockAbsorbed` grows by the floored shock, and the parent's grows by the
body's entire just-incremented total. -/
theorem hitBody_self_of_parent_ne (s : Store) (i : ℕ) (mag : ℕ)
    (h : (s i).parent ≠ i) :
    hitBody s i mag i =
      { s i with shockAbsorbed := some ((s i).shockAbsorbed.getD 0 + mag) } := by
  unfold hitBody addShock initShock
  simp only [setShock_self, setShock_ne]
  simp [setShock_self, setShock_ne, Store.set, setShock, h, Ne.symm]

theorem hitBody_parent_of_parent_ne (s : Store) (i : ℕ) (mag : ℕ)
    (h : (s i).parent ≠ i) :
    hitBody s i mag ((s i).parent) =
      { s ((s i).parent) with
          shockAbsorbed :=
            some ((s ((s i).parent)).shockAbsorbed.getD 0 +
              ((s i).shockAbsorbed.getD 0 + mag)) } := by
  unfold hitBody addShock initShock
  simp [setShock_self, setShock_ne, Store.set, setShock, h, Ne.symm]

/-- Accumulation for a body that is its own parent: the same mutable field
receives the part-level increment and then has its just-incremented value
added onto itself, doubling it. -/
theorem hitBody_of_parent_self (s : Store) (i : ℕ) (mag : ℕ)
    (h : (s i).parent = i) :
    hitBody s i mag i =
      { s i with shockAbsorbed := some (2 * ((s i).shockAbsorbed.getD 0 + mag)) } := by
  unfold hitBody addShock initShock
  simp [setShock_self, setShock_ne, Store.set, setShock, h, Ne.symm, two_mul]

/-- Bodies other than the hit body and its parent are untouched. -/
theorem hitBody_other (s : Store) (i : ℕ) (mag : ℕ) (q : ℕ)
    (hqi : q ≠ i) (hqp : q ≠ (s i).parent) :
    hitBody s i mag q = s q := by
  unfold hitBody addShock initShock
  simp [setShock_self, setShock_ne, Store.set, setShock, hqi, hqp, Ne.symm]

/-- A fresh `hitBody` on a body with a distinct parent, both starting from
shock 0 (or undefined): body and parent both end at `some mag`. -/
theorem hitBody_fresh (s : Store) (i q : ℕ) (mag : ℕ)
    (hpar : (s i).parent = q) (hne : q ≠ i)
    (hsi : (s i).shockAbsorbed.getD 0 = 0)
    (hsq : (s q).shockAbsorbed.getD 0 = 0) :
    (hitBody s i mag i).shockAbsorbed = some mag ∧
    (hitBody s i mag q).shockAbsorbed = some mag := by
  constructor
  · rw [hitBody_self_of_parent_ne s i mag (by rw [hpar]; exact hne)]
    simp [hsi]
  · have h := hitBody_parent_of_parent_ne s i mag (by rw [hpar]; exact hne)
    rw [hpar] at h
    rw [h]
    simp [hsi, hsq]

/-- C2: a first collision between dynamic bodies A (mass 2, velocityPrev
(3,0)) and B (mass 1, velocityPrev (0,0)), with all four `shockAbsorbed`
fields 0 or uninitialised and the two parents distinct from the parts and
from each other, computes shock 6 and leaves the part-level and parent-level
`shockAbsorbed` of both sides equal to 6. -/
theorem collisionStart_first_collision (w : World) (pa pb qa qb : ℕ)
    (hpar_a : (w.store pa).parent = qa) (hpar_b : (w.store pb).parent = qb)
    (hab : pa ≠ pb) (hqa_a : qa ≠ pa) (hqa_b : qa ≠ pb)
    (hqb_a : qb ≠ pa) (hqb_b : qb ≠ pb) (hqq : qa ≠ qb)
    (hsa : (w.store pa).shockAbsorbed.getD 0 = 0)
    (hsb : (w.store pb).shockAbsorbed.getD 0 = 0)
    (hsqa : (w.store qa).shockAbsorbed.getD 0 = 0)
    (hsqb : (w.store qb).shockAbsorbed.getD 0 = 0)
    (hma : (w.store pa).mass = 2) (hva : (w.store pa).velocityPrev = ⟨3, 0⟩)
    (hsta : (w.store pa).isStatic = false)
    (hmb : (w.store pb).mass = 1) (hvb : (w.store pb).velocityPrev = ⟨0, 0⟩)
    (hstb : (w.store pb).isStatic = false) :
    pairMag w.store pa pb = 6 ∧
    ((collisionStart w [(pa, pb)]).store pa).shockAbsorbed = some 6 ∧
    ((collisionStart w [(pa, pb)]).store pb).shockAbsorbed = some 6 ∧
    ((collisionStart w [(pa, pb)]).store qa).shockAbsorbed = some 6 ∧
    ((collisionStart w [(pa, pb)]).store qb).shockAbsorbed = some 6 := by
  have hmag : pairMag w.store pa pb = 6 := by
    unfold pairMag
    rw [hva, hsta, hma, hvb, hstb, hmb]
    norm_num [Vec.mult, Vec.sub, floorMag, Int.floor_ofNat, Int.toNat_ofNat]
    simp [Nat.sqrt, Nat.sqrt.iter]
  have hkey : ∀ q, (collisionStart w [(pa, pb)]).store q =
      hitBody (hitBody w.store pa 6) pb 6 q := by
    intro q
    simp only [collisionStart, List.foldl, collidePair]
    rw [hmag]
  set s := w.store with hs
  have hnq_a : (s pa).parent ≠ pa := by rw [hpar_a]; exact hqa_a
  have e_pb : hitBody s pa 6 pb = s pb :=
    hitBody_other s pa 6 pb (Ne.symm hab) (by rw [hpar_a]; exact Ne.symm hqa_b)
  have e_qb : hitBody s pa 6 qb = s qb :=
    hitBody_other s pa 6 qb hqb_a (by rw [hpar_a]; exact Ne.symm hqq)
  have first := hitBody_fresh s pa qa 6 hpar_a hqa_a hsa hsqa
  have hpar_b2 : (hitBody s pa 6 pb).parent = qb := by rw [e_pb]; exact hpar_b
  have second := hitBody_fresh (hitBody s pa 6) pb qb 6 hpar_b2 hqb_b
    (by rw [e_pb]; exact hsb) (by rw [e_qb]; exact hsqb)
  have e2_pa : hitBody (hitBody s pa 6) pb 6 pa = hitBody s pa 6 pa :=
    hitBody_other (hitBody s pa 6) pb 6 pa hab (by rw [hpar_b2]; exact Ne.symm hqb_a)
  have e2_qa : hitBody (hitBody s pa 6) pb 6 qa = hitBody s pa 6 qa :=
    hitBody_other (hitBody s pa 6) pb 6 qa hqa_b (by rw [hpar_b2]; exact hqq)
  refine ⟨hmag, ?_, ?_, ?_, ?_⟩
  · rw [hkey, e2_pa]; exact first.1
  · rw [hkey]; exact second.1
  · rw [hkey, e2_qa]; exact first.2
  · rw [hkey]; exact second.2

/-- `collidePair` changes nothing but `shockAbsorbed` fields. -/
theorem collidePair_eraseShock (s : Store) (a b : ℕ) (q : ℕ) :
    (collidePair s a b q).eraseShock = (s q).eraseShock := by
  simp [collidePair, hitBody_eraseShock]

/-- Full characterisation of one collision pair when the two parts and
their two parents are four distinct bodies: each part's `shockAbsorbed`
grows by the pair's floored shock magnitude, and each parent's grows by its
part's entire just-incremented running total. -/
theorem collidePair_spec (s : Store) (pa pb qa qb : ℕ)
    (hpar_a : (s pa).parent = qa) (hpar_b : (s pb).parent = qb)
    (hab : pa ≠ pb) (hqa_a : qa ≠ pa) (hqa_b : qa ≠ pb)
    (hqb_a : qb ≠ pa) (hqb_b : qb ≠ pb) (hqq : qa ≠ qb) :
    collidePair s pa pb pa =
      { s pa with
          shockAbsorbed := some ((s pa).shockAbsorbed.getD 0 + pairMag s pa pb) } ∧
    collidePair s pa pb qa =
      { s qa with
          shockAbsorbed := some ((s qa).shockAbsorbed.getD 0 +
            ((s pa).shockAbsorbed.getD 0 + pairMag s pa pb)) } ∧
    collidePair s pa pb pb =
      { s pb with
          shockAbsorbed := some ((s pb).shockAbsorbed.getD 0 + pairMag s pa pb) } ∧
    collidePair s pa pb qb =
      { s qb with
          shockAbsorbed := some ((s qb).shockAbsorbed.getD 0 +
            ((s pb).shockAbsorbed.getD 0 + pairMag s pa pb)) } := by
  have hcp : ∀ q, collidePair s pa pb q =
      hitBody (hitBody s pa (pairMag s pa pb)) pb (pairMag s pa pb) q := by
    intro q; simp [collidePair]
  set mag := pairMag s pa pb with hmagdef
  have hnq_a : (s pa).parent ≠ pa := by rw [hpar_a]; exact hqa_a
  have e_pb : hitBody s pa mag pb = s pb :=
    hitBody_other s pa mag pb (Ne.symm hab) (by rw [hpar_a]; exact Ne.symm hqa_b)
  have e_qb : hitBody s pa mag qb = s qb :=
    hitBody_other s pa mag qb hqb_a (by rw [hpar_a]; exact Ne.symm hqq)
  have e_pa : hitBody s pa mag pa =
      { s pa with
          shockAbsorbed := some ((s pa).shockAbsorbed.getD 0 + mag) } :=
    hitBody_self_of_parent_ne s pa mag hnq_a
  have e_qa : hitBody s pa mag qa =
      { s qa with
          shockAbsorbed := some ((s qa).shockAbsorbed.getD 0 +
            ((s pa).shockAbsorbed.getD 0 + mag)) } := by
    have h := hitBody_parent_of_parent_ne s pa mag hnq_a
    rw [hpar_a] at h
    exact h
  have hpar_b2 : (hitBody s pa mag pb).parent = qb := by rw [e_pb]; exact hpar_b
  have hnq_b : (hitBody s pa mag pb).parent ≠ pb := by rw [hpar_b2]; exact hqb_b
  have f_pa : hitBody (hitBody s pa mag) pb mag pa = hitBody s pa mag pa :=
    hitBody_other (hitBody s pa mag) pb mag pa hab (by rw [hpar_b2]; exact Ne.symm hqb_a)
  have f_qa : hitBody (hitBody s pa mag) pb mag qa = hitBody s pa mag qa :=
    hitBody_other (hitBody s pa mag) pb mag qa hqa_b (by rw [hpar_b2]; exact hqq)
  have f_pb : hitBody (hitBody s pa mag) pb mag pb =
      { s pb with
          shockAbsorbed := some ((s pb).shockAbsorbed.getD 0 + mag) } := by
    have h := hitBody_self_of_parent_ne (hitBody s pa mag) pb mag hnq_b
    rw [e_pb] at h
    exact h
  have f_qb : hitBody (hitBody s pa mag) pb mag qb =
      { s qb with
          shockAbsorbed := some ((s qb).shockAbsorbed.getD 0 +
            ((s pb).shockAbsorbed.getD 0 + mag)) } := by
    have h := hitBody_parent_of_parent_ne (hitBody s pa mag) pb mag hnq_b
    rw [hpar_b2] at h
    rw [e_pb, e_qb] at h
    exact h
  exact ⟨by rw [hcp, f_pa, e_pa], by rw [hcp, f_qa, e_qa],
    by rw [hcp, f_pb], by rw [hcp, f_qb]⟩

/-- C1: for each colliding body the hook adds the floored shock to the
part's own `shockAbsorbed`, then adds the part's entire just-incremented
running total to its distinct parent; across two identical collisions of the
same pair with shock 6 starting from zero, each part reaches 12 while each
parent reaches 6 + 12 = 18 (not a simple delta sum of 12). -/
theorem collisionStart_compounding (w : World) (pa pb qa qb : ℕ)
    (hpar_a : (w.store pa).parent = qa) (hpar_b : (w.store pb).parent = qb)
    (hab : pa ≠ pb) (hqa_a : qa ≠ pa) (hqa_b : qa ≠ pb)
    (hqb_a : qb ≠ pa) (hqb_b : qb ≠ pb) (hqq : qa ≠ qb)
    (hsa : (w.store pa).shockAbsorbed.getD 0 = 0)
    (hsb : (w.store pb).shockAbsorbed.getD 0 = 0)
    (hsqa : (w.store qa).shockAbsorbed.getD 0 = 0)
    (hsqb : (w.store qb).shockAbsorbed.getD 0 = 0)
    (hmag : pairMag w.store pa pb = 6) :
    (((collisionStart w [(pa, pb)]).store pa).shockAbsorbed = some 6 ∧
     ((collisionStart w [(pa, pb)]).store qa).shockAbsorbed = some 6) ∧
    ((collisionStart (collisionStart w [(pa, pb)]) [(pa, pb)]).store pa).shockAbsorbed
      = some 12 ∧
    ((collisionStart (collisionStart w [(pa, pb)]) [(pa, pb)]).store qa).shockAbsorbed
      = some 18 ∧
    ((collisionStart (collisionStart w [(pa, pb)]) [(pa, pb)]).store pb).shockAbsorbed
      = some 12 ∧
    ((collisionStart (collisionStart w [(pa, pb)]) [(pa, pb)]).store qb).shockAbsorbed
      = some 18 := by
  set s := w.store with hs
  have hw1 : (collisionStart w [(pa, pb)]).store = collidePair s pa pb := rfl
  have hw2 : (collisionStart (collisionStart w [(pa, pb)]) [(pa, pb)]).store =
      collidePair (collidePair s pa pb) pa pb := rfl
  obtain ⟨r_pa, r_qa, r_pb, r_qb⟩ :=
    collidePair_spec s pa pb qa qb hpar_a hpar_b hab hqa_a hqa_b hqb_a hqb_b hqq
  have g_pa : (collidePair s pa pb pa).shockAbsorbed = some 6 := by
    rw [r_pa]; simp [hsa, hmag]
  have g_qa : (collidePair s pa pb qa).shockAbsorbed = some 6 := by
    rw [r_qa]; simp [hsa, hsqa, hmag]
  have g_pb : (collidePair s pa pb pb).shockAbsorbed = some 6 := by
    rw [r_pb]; simp [hsb, hmag]
  have g_qb : (collidePair s pa pb qb).shockAbsorbed = some 6 := by
    rw [r_qb]; simp [hsb, hsqb, hmag]
  have hpar_a1 : (collidePair s pa pb pa).parent = qa := by rw [r_pa]; exact hpar_a
  have hpar_b1 : (collidePair s pa pb pb).parent = qb := by rw [r_pb]; exact hpar_b
  have hmag1 : pairMag (collidePair s pa pb) pa pb = 6 := by
    rw [pairMag_congr (collidePair s pa pb) s pa pb
      (collidePair_eraseShock s pa pb pa) (collidePair_eraseShock s pa pb pb)]
    exact hmag
  obtain ⟨t_pa, t_qa, t_pb, t_qb⟩ :=
    collidePair_spec (collidePair s pa pb) pa pb qa qb hpar_a1 hpar_b1
      hab hqa_a hqa_b hqb_a hqb_b hqq
  refine ⟨⟨by rw [hw1]; exact g_pa, by rw [hw1]; exact g_qa⟩, ?_, ?_, ?_, ?_⟩
  · rw [hw2, t_pa]
    simp [hmag1, g_pa]
  · rw [hw2, t_qa]
    simp [hmag1, g_pa, g_qa]
  · rw [hw2, t_pb]
    simp [hmag1, g_pb]
  · rw [hw2, t_qb]
    simp [hmag1, g_pb, g_qb]

/-- C3: a body that is its own parent (a non-compound body) and collides in
either position of a pair has its `shockAbsorbed` taken from prior total `t`
to `2 * (t + shock)`: the part-level increment brings the field to
`t + shock`, then the parent-accumulation step adds the body's own
just-updated total back onto the same field. -/
theorem collisionStart_self_parent (w : World) (i pb : ℕ) (t : ℕ)
    (hpar : (w.store i).parent = i) (hne : i ≠ pb)
    (hop : (w.store pb).parent ≠ i)
    (ht : (w.store i).shockAbsorbed.getD 0 = t) :
    ((collisionStart w [(i, pb)]).store i).shockAbsorbed
      = some (2 * (t + pairMag w.store i pb)) ∧
    ((collisionStart w [(pb, i)]).store i).shockAbsorbed
      = some (2 * (t + pairMag w.store pb i)) := by
  set s := w.store with hs
  constructor
  · have hw : (collisionStart w [(i, pb)]).store = collidePair s i pb := rfl
    have hcp : ∀ q, collidePair s i pb q =
        hitBody (hitBody s i (pairMag s i pb)) pb (pairMag s i pb) q := by
      intro q; simp [collidePair]
    set mag := pairMag s i pb with hmagdef
    have e_pb : hitBody s i mag pb = s pb :=
      hitBody_other s i mag pb (Ne.symm hne) (by rw [hpar]; exact Ne.symm hne)
    have e_i : hitBody s i mag i =
        { s i with shockAbsorbed := some (2 * ((s i).shockAbsorbed.getD 0 + mag)) } :=
      hitBody_of_parent_self s i mag hpar
    have f_i : hitBody (hitBody s i mag) pb mag i = hitBody s i mag i :=
      hitBody_other (hitBody s i mag) pb mag i hne (by rw [e_pb]; exact Ne.symm hop)
    rw [hw, hcp, f_i, e_i, ht]
  · have hw : (collisionStart w [(pb, i)]).store = collidePair s pb i := rfl
    have hcp : ∀ q, collidePair s pb i q =
        hitBody (hitBody s pb (pairMag s pb i)) i (pairMag s pb i) q := by
      intro q; simp [collidePair]
    set mag := pairMag s pb i with hmagdef
    have e_i : hitBody s pb mag i = s i :=
      hitBody_other s pb mag i hne (Ne.symm hop)
    have hpar1 : (hitBody s pb mag i).parent = i := by rw [e_i]; exact hpar
    have f_i : hitBody (hitBody s pb mag) i mag i =
        { hitBody s pb mag i with
            shockAbsorbed := some (2 * ((hitBody s pb mag i).shockAbsorbed.getD 0 + mag)) } :=
      hitBody_of_parent_self (hitBody s pb mag) i mag hpar1
    rw [hw, hcp, f_i, e_i, ht]

theorem Vec.mult_zero (v : Vec) : Vec.mult v 0 = ⟨0, 0⟩ := by
  simp [Vec.mult]

theorem floorMag_zero_sub (m : Vec) : floorMag (Vec.sub ⟨0, 0⟩ m) = floorMag m := by
  have h : (0 - m.x) ^ 2 + (0 - m.y) ^ 2 = m.x ^ 2 + m.y ^ 2 := by ring
  simp [floorMag, Vec.sub, h]

theorem floorMag_sub_zero (m : Vec) : floorMag (Vec.sub m ⟨0, 0⟩) = floorMag m := by
  have h : (m.x - 0) ^ 2 + (m.y - 0) ^ 2 = m.x ^ 2 + m.y ^ 2 := by ring
  simp [floorMag, Vec.sub, h]

/-- C8: when exactly one body of a pair is static, the static body's
momentum is the zero vector regardless of its `velocityPrev`, and the shock
magnitude is the floored magnitude of the dynamic body's momentum alone —
in either order of the pair. -/
theorem pairMag_one_static (s : Store) (pa pb : ℕ)
    (ha : (s pa).isStatic = true) (hb : (s pb).isStatic = false) :
    pairMag s pa pb = floorMag (Vec.mult (s pb).velocityPrev (s pb).mass) ∧
    pairMag s pb pa = floorMag (Vec.mult (s pb).velocityPrev (s pb).mass) := by
  constructor
  · unfold pairMag
    rw [ha, hb]
    simp only [if_true, if_false, Vec.mult_zero]
    exact floorMag_zero_sub _
  · unfold pairMag
    rw [ha, hb]
    simp only [if_true, if_false, Vec.mult_zero]
    exact floorMag_sub_zero _

/-- Bodies outside a pair's two parts and their two parents are untouched
by the pair's processing. -/
theorem collidePair_untouched (s : Store) (a b q : ℕ)
    (hqa : q ≠ a) (hqb : q ≠ b)
    (hpa : q ≠ (s a).parent) (hpb : q ≠ (s b).parent) :
    collidePair s a b q = s q := by
  have hcp : collidePair s a b q =
      hitBody (hitBody s a (pairMag s a b)) b (pairMag s a b) q := by
    simp [collidePair]
  have e1 : hitBody s a (pairMag s a b) q = s q :=
    hitBody_other s a (pairMag s a b) q hqa hpa
  have hparb : (hitBody s a (pairMag s a b) b).parent = (s b).parent :=
    eraseShock_parent _ _ (hitBody_eraseShock s a (pairMag s a b) b)
  have e2 : hitBody (hitBody s a (pairMag s a b)) b (pairMag s a b) q =
      hitBody s a (pairMag s a b) q :=
    hitBody_other _ b _ q hqb (by rw [hparb]; exact hpb)
  rw [hcp, e2, e1]

theorem touchedIds_congr (s t : Store)
    (h : ∀ r, (s r).eraseShock = (t r).eraseShock) :
    ∀ pairs, touchedIds s pairs = touchedIds t pairs := by
  intro pairs
  induction pairs with
  | nil => rfl
  | cons pr rest ih =>
    simp [touchedIds, ih, eraseShock_parent _ _ (h pr.1), eraseShock_parent _ _ (h pr.2)]

theorem collide_foldl_eraseShock (pairs : List (ℕ × ℕ)) (s : Store) (r : ℕ) :
    ((pairs.foldl (fun s pr => collidePair s pr.1 pr.2) s) r).eraseShock =
      (s r).eraseShock := by
  induction pairs generalizing s with
  | nil => rfl
  | cons pr rest ih =>
    rw [List.foldl_cons, ih, collidePair_eraseShock]

theorem collide_foldl_untouched (pairs : List (ℕ × ℕ)) (s : Store) (q : ℕ)
    (hq : q ∉ touchedIds s pairs) :
    (pairs.foldl (fun s pr => collidePair s pr.1 pr.2) s) q = s q := by
  induction pairs generalizing s with
  | nil => rfl
  | cons pr rest ih =>
    simp only [touchedIds, List.mem_cons, not_or] at hq
    obtain ⟨h1, h2, h3, h4, h5⟩ := hq
    rw [List.foldl_cons]
    have hrest : q ∉ touchedIds (collidePair s pr.1 pr.2) rest := by
      rw [touchedIds_congr (collidePair s pr.1 pr.2) s
        (fun r => collidePair_eraseShock s pr.1 pr.2 r) rest]
      exact h5
    rw [ih (collidePair s pr.1 pr.2) hrest,
      collidePair_untouched s pr.1 pr.2 q h1 h2 h3 h4]

/-- C9: the collision hook removes nothing — the world's body list is
unchanged — and the only state it mutates is the `shockAbsorbed` fields of
the colliding bodies and their parents: every body keeps all its other
fields, and a body that is neither a member of a pair nor a parent of one
is completely unchanged. -/
theorem collisionStart_frame (w : World) (pairs : List (ℕ × ℕ)) (q : ℕ)
    (hq : q ∉ touchedIds w.store pairs) :
    (collisionStart w pairs).alive = w.alive ∧
    (∀ r, ((collisionStart w pairs).store r).eraseShock = (w.store r).eraseShock) ∧
    (collisionStart w pairs).store q = w.store q := by
  refine ⟨rfl, ?_, ?_⟩
  · intro r
    exact collide_foldl_eraseShock pairs w.store r
  · exact collide_foldl_untouched pairs w.store q hq

/-- An invariant preserved by every step of a fold holds of the result. -/
theorem foldl_pres {α β : Type} (P : α → Prop) (f : α → β → α) (l : List β)
    (a : α) (ha : P a) (hf : ∀ x b, P x → P (f x b)) : P (l.foldl f a) := by
  induction l generalizing a with
  | nil => exact ha
  | cons b rest ih => exact ih (f a b) (hf a b ha)

/-- A property established by the fold step at some list member and
preserved afterwards holds of the result, provided a sufficient
precondition is preserved up to that member. -/
theorem foldl_mem_est {α β : Type} (P Q : α → Prop) (f : α → β → α)
    (l : List β) (a : α) (b : β) (hb : b ∈ l) (hQ : Q a)
    (hQpres : ∀ x c, Q x → Q (f x c))
    (hest : ∀ x, Q x → P (f x b))
    (hPpres : ∀ x c, P x → P (f x c)) : P (l.foldl f a) := by
  obtain ⟨l1, l2, rfl⟩ := List.append_of_mem hb
  rw [List.foldl_append, List.foldl_cons]
  exact foldl_pres P f l2 _ (hest _ (foldl_pres Q f l1 a hQ hQpres)) hPpres

/-- One pre-step part action either leaves the store alone (the removal
branch) or overwrites exactly the processed part's `velocityPrev` with its
current velocity. -/
theorem stepPart_store_cases (v : World) (r q : ℕ) :
    (stepPart v r).store q = v.store q ∨
    (q = r ∧ (v.store r).label = "Projectile" ∧ (v.store r).isSleeping = true →
        False) ∧
      (stepPart v r).store q =
        if q = r then { v.store q with velocityPrev := (v.store q).velocity }
        else v.store q := by
  unfold stepPart removeBody
  by_cases h : (v.store r).label = "Projectile" ∧ (v.store r).isSleeping
  · left; simp [h]
  · right
    constructor
    · intro hc
      exact h ⟨hc.2.1, hc.2.2⟩
    · by_cases hq : q = r
      · subst hq; simp [h, Store.set_self]
      · simp [h, hq, Store.set_ne _ _ _ _ hq]

/-- The pre-step part action never changes a `parts` list. -/
theorem stepPart_parts (v : World) (r q : ℕ) :
    ((stepPart v r).store q).parts = (v.store q).parts := by
  rcases stepPart_store_cases v r q with h | ⟨_, h⟩
  · rw [h]
  · rw [h]
    by_cases hq : q = r <;> simp [hq]

/-- The pre-step part action never changes a label. -/
theorem stepPart_label (v : World) (r q : ℕ) :
    ((stepPart v r).store q).label = (v.store q).label := by
  rcases stepPart_store_cases v r q with h | ⟨_, h⟩
  · rw [h]
  · rw [h]
    by_cases hq : q = r <;> simp [hq]

/-- The pre-step part action never changes a sleep flag. -/
theorem stepPart_isSleeping (v : World) (r q : ℕ) :
    ((stepPart v r).store q).isSleeping = (v.store q).isSleeping := by
  rcases stepPart_store_cases v r q with h | ⟨_, h⟩
  · rw [h]
  · rw [h]
    by_cases hq : q = r <;> simp [hq]

/-- The pre-step part action only ever removes from the live list. -/
theorem stepPart_alive_mono (v : World) (r q : ℕ) (h : q ∉ v.alive) :
    q ∉ (stepPart v r).alive := by
  unfold stepPart removeBody
  by_cases hc : (v.store r).label = "Projectile" ∧ (v.store r).isSleeping
  · simp only [hc, if_pos]
    intro hmem
    exact h (List.mem_of_mem_filter hmem)
  · simp only [hc, if_neg, not_false_iff]
    exact h

/-- Processing a sleeping "Projectile" part removes it from the world and
leaves its record untouched. -/
theorem stepPart_removes (v : World) (r : ℕ)
    (hlbl : (v.store r).label = "Projectile") (hslp : (v.store r).isSleeping = true) :
    r ∉ (stepPart v r).alive ∧ (stepPart v r).store = v.store := by
  unfold stepPart removeBody
  have hc : (v.store r).label = "Projectile" ∧ (v.store r).isSleeping := ⟨hlbl, hslp⟩
  simp only [hc, and_self, if_pos]
  constructor
  · intro hmem
    have := List.of_mem_filter hmem
    simp at this
  · trivial

/-- C5: a part labelled "Projectile" whose sleep flag is set when the
pre-step hook runs is removed from the world during the pass, and the hook
does no further processing on it: its record — in particular its
`velocityPrev` — is exactly what it was when the pass started. -/
theorem beforeUpdate_removes_sleeping_projectile (w : World) (bid pid : ℕ)
    (hbid : bid ∈ w.alive) (hpid : pid ∈ (w.store bid).parts)
    (hlbl : (w.store pid).label = "Projectile")
    (hslp : (w.store pid).isSleeping = true) :
    pid ∉ (beforeUpdate w).alive ∧ (beforeUpdate w).store pid = w.store pid := by
  have hQsp : ∀ (v : World) (r : ℕ), v.store pid = w.store pid →
      (stepPart v r).store pid = w.store pid := by
    intro v r hv
    rcases stepPart_store_cases v r pid with h | ⟨hfalse, h⟩
    · rw [h]; exact hv
    · by_cases hq : pid = r
      · exact absurd ⟨hq, by rw [← hq, hv]; exact hlbl, by rw [← hq, hv]; exact hslp⟩ hfalse
      · rw [h, if_neg hq]; exact hv
  have hPsp : ∀ (v : World) (r : ℕ),
      (pid ∉ v.alive ∧ v.store pid = w.store pid) →
      (pid ∉ (stepPart v r).alive ∧ (stepPart v r).store pid = w.store pid) := by
    intro v r hv
    exact ⟨stepPart_alive_mono v r pid hv.1, hQsp v r hv.2⟩
  have hPbody : ∀ (v : World) (c : ℕ),
      (pid ∉ v.alive ∧ v.store pid = w.store pid) →
      (pid ∉ (stepBody v c).alive ∧ (stepBody v c).store pid = w.store pid) := by
    intro v c hv
    exact foldl_pres (fun u => pid ∉ u.alive ∧ u.store pid = w.store pid)
      stepPart ((v.store c).parts) v hv hPsp
  have hQbody : ∀ (v : World) (c : ℕ),
      ((v.store bid).parts = (w.store bid).parts ∧ v.store pid = w.store pid) →
      ((stepBody v c).store bid).parts = (w.store bid).parts ∧
        (stepBody v c).store pid = w.store pid := by
    intro v c hv
    exact foldl_pres
      (fun u => (u.store bid).parts = (w.store bid).parts ∧ u.store pid = w.store pid)
      stepPart ((v.store c).parts) v hv
      (fun u r hu => ⟨(stepPart_parts u r bid).trans hu.1, hQsp u r hu.2⟩)
  have hest : ∀ v : World,
      ((v.store bid).parts = (w.store bid).parts ∧ v.store pid = w.store pid) →
      (pid ∉ (stepBody v bid).alive ∧ (stepBody v bid).store pid = w.store pid) := by
    intro v hv
    unfold stepBody
    rw [hv.1]
    refine foldl_mem_est
      (fun u => pid ∉ u.alive ∧ u.store pid = w.store pid)
      (fun u => u.store pid = w.store pid)
      stepPart ((w.store bid).parts) v pid hpid hv.2 hQsp ?_ hPsp
    intro u hu
    have hrem := stepPart_removes u pid (by rw [hu]; exact hlbl) (by rw [hu]; exact hslp)
    exact ⟨hrem.1, by rw [hrem.2]; exact hu⟩
  exact foldl_mem_est
    (fun u => pid ∉ u.alive ∧ u.store pid = w.store pid)
    (fun u => (u.store bid).parts = (w.store bid).parts ∧ u.store pid = w.store pid)
    stepBody w.alive w bid hbid ⟨rfl, rfl⟩ hQbody hest hPbody

theorem eraseAngle_label (b c : Body) (h : b.eraseAngle = c.eraseAngle) :
    b.label = c.label := by
  have h2 := congrArg Body.label h
  simpa [Body.eraseAngle] using h2

theorem eraseAngle_shockAbsorbed (b c : Body) (h : b.eraseAngle = c.eraseAngle) :
    b.shockAbsorbed = c.shockAbsorbed := by
  have h2 := congrArg Body.shockAbsorbed h
  simpa [Body.eraseAngle] using h2

theorem eraseAngle_velocityPrev (b c : Body) (h : b.eraseAngle = c.eraseAngle) :
    b.velocityPrev = c.velocityPrev := by
  have h2 := congrArg Body.velocityPrev h
  simpa [Body.eraseAngle] using h2

theorem eraseAngle_parts (b c : Body) (h : b.eraseAngle = c.eraseAngle) :
    b.parts = c.parts := by
  have h2 := congrArg Body.parts h
  simpa [Body.eraseAngle] using h2

theorem setAngle_eraseAngle (v : World) (i : ℕ) (a : ℚ) (q : ℕ) :
    ((setAngle v i a).store q).eraseAngle = (v.store q).eraseAngle := by
  by_cases hq : q = i
  · subst hq
    simp [setAngle, Store.set, Body.eraseAngle]
  · simp [setAngle, Store.set, hq]

theorem setAngle_alive (v : World) (i : ℕ) (a : ℚ) :
    (setAngle v i a).alive = v.alive := rfl

/-- The angle-synchronisation pass mutates nothing but angles, and never
the live list. -/
theorem syncAngles_eraseAngle (v : World) (c q : ℕ) :
    ((syncAngles v c).store q).eraseAngle = (v.store q).eraseAngle ∧
    (syncAngles v c).alive = v.alive := by
  unfold syncAngles
  by_cases h : (v.store c).parts.length > 1
  · rw [if_pos h]
    exact foldl_pres
      (fun u => (u.store q).eraseAngle = (v.store q).eraseAngle ∧ u.alive = v.alive)
      (fun u pid => setAngle u pid ((u.store c).angle)) ((v.store c).parts) v
      ⟨rfl, rfl⟩
      (fun u r hu => ⟨(setAngle_eraseAngle u r _ q).trans hu.1,
        (setAngle_alive u r _).trans hu.2⟩)
  · rw [if_neg h]
    exact ⟨rfl, rfl⟩

/-- One post-step body action mutates nothing but angles in the store. -/
theorem afterBody_eraseAngle (v : World) (c q : ℕ) :
    ((afterBody v c).store q).eraseAngle = (v.store q).eraseAngle := by
  unfold afterBody removeBody
  by_cases h : ((syncAngles v c).store c).label = "Block" ∧
      shockExceeds ((syncAngles v c).store c).shockAbsorbed
  · simp only [h, and_self, if_pos]
    exact (syncAngles_eraseAngle v c q).1
  · simp only [h, if_neg, not_false_iff]
    exact (syncAngles_eraseAngle v c q).1

/-- The post-step body action only ever removes from the live list. -/
theorem afterBody_alive_mono (v : World) (c q : ℕ) (h : q ∉ v.alive) :
    q ∉ (afterBody v c).alive := by
  unfold afterBody removeBody
  by_cases hc : ((syncAngles v c).store c).label = "Block" ∧
      shockExceeds ((syncAngles v c).store c).shockAbsorbed
  · simp only [hc, and_self, if_pos]
    intro hmem
    exact (h ((syncAngles_eraseAngle v c q).2 ▸ List.mem_of_mem_filter hmem))
  · simp only [hc, if_neg, not_false_iff]
    rw [(syncAngles_eraseAngle v c q).2]
    exact h

/-- The post-step body action removes only the body it is processing: any
other id keeps its live-list membership. -/
theorem afterBody_alive_other (v : World) (c q : ℕ) (hq : q ≠ c)
    (h : q ∈ v.alive) : q ∈ (afterBody v c).alive := by
  unfold afterBody removeBody
  by_cases hc : ((syncAngles v c).store c).label = "Block" ∧
      shockExceeds ((syncAngles v c).store c).shockAbsorbed
  · simp only [hc, and_self, if_pos]
    rw [(syncAngles_eraseAngle v c q).2]
    exact List.mem_filter.mpr ⟨h, by simp [hq]⟩
  · simp only [hc, if_neg, not_false_iff]
    rw [(syncAngles_eraseAngle v c q).2]
    exact h

/-- Processing a "Block" body whose accumulated shock exceeds 500 removes
it from the world. -/
theorem afterBody_removes (v : World) (c : ℕ)
    (hlbl : (v.store c).label = "Block")
    (hsh : shockExceeds (v.store c).shockAbsorbed = true) :
    c ∉ (afterBody v c).alive := by
  unfold afterBody removeBody
  have hl2 : ((syncAngles v c).store c).label = "Block" := by
    rw [eraseAngle_label _ _ (syncAngles_eraseAngle v c c).1]; exact hlbl
  have hs2 : shockExceeds ((syncAngles v c).store c).shockAbsorbed = true := by
    rw [eraseAngle_shockAbsorbed _ _ (syncAngles_eraseAngle v c c).1]; exact hsh
  simp only [hl2, hs2, and_self, if_pos]
  intro hmem
  have := List.of_mem_filter hmem
  simp at this

/-- Variant of `foldl_pres` that only requires preservation at list
members. -/
theorem foldl_pres_mem {α β : Type} (P : α → Prop) (f : α → β → α) :
    ∀ (l : List β) (a : α), P a → (∀ x b, b ∈ l → P x → P (f x b)) →
      P (l.foldl f a) := by
  intro l
  induction l with
  | nil => intro a ha _; exact ha
  | cons c rest ih =>
    intro a ha hf
    rw [List.foldl_cons]
    exact ih (f a c) (hf a c (List.mem_cons_self c rest) ha)
      (fun x b hb hx => hf x b (List.mem_cons_of_mem c hb) hx)

/-- Variant of `foldl_mem_est` that only requires preservation at list
members. -/
theorem foldl_mem_est_mem {α β : Type} (P Q : α → Prop) (f : α → β → α)
    (l : List β) (a : α) (b : β) (hb : b ∈ l) (hQ : Q a)
    (hQpres : ∀ x c, c ∈ l → Q x → Q (f x c))
    (hest : ∀ x, Q x → P (f x b))
    (hPpres : ∀ x c, c ∈ l → P x → P (f x c)) : P (l.foldl f a) := by
  obtain ⟨l1, l2, rfl⟩ := List.append_of_mem hb
  rw [List.foldl_append, List.foldl_cons]
  refine foldl_pres_mem P f l2 _
    (hest _ (foldl_pres_mem Q f l1 a hQ
      (fun x c hc hx => hQpres x c (by simp [hc]) hx)))
    (fun x c hc hx => hPpres x c (by simp [hc]) hx)

theorem setAngle_angle (v : World) (i : ℕ) (a : ℚ) (q : ℕ) :
    ((setAngle v i a).store q).angle = if q = i then a else (v.store q).angle := by
  by_cases hq : q = i
  · subst hq; simp [setAngle, Store.set]
  · simp [setAngle, Store.set, hq]

theorem setAngle_store_other (v : World) (i : ℕ) (a : ℚ) (q : ℕ) (hq : q ≠ i) :
    (setAngle v i a).store q = v.store q := by
  simp [setAngle, Store.set, hq]

/-- Ids outside a body's parts list keep their whole record through its
angle synchronisation. -/
theorem syncAngles_store_other (v : World) (c q : ℕ)
    (hq : q ∉ (v.store c).parts) :
    (syncAngles v c).store q = v.store q := by
  unfold syncAngles
  by_cases h : (v.store c).parts.length > 1
  · rw [if_pos h]
    exact foldl_pres_mem (fun u => u.store q = v.store q)
      (fun u pid => setAngle u pid ((u.store c).angle)) ((v.store c).parts) v rfl
      (fun u r hr hu => (setAngle_store_other u r _ q
        (fun hqr => hq (hqr ▸ hr))).trans hu)
  · rw [if_neg h]

/-- Synchronising a compound's angles drives every member of its parts list
to the compound's angle, and the compound's own angle never moves during
the pass (each write to it re-writes its current value). -/
theorem syncAngles_mem_angle (v : World) (c p : ℕ)
    (hc : (v.store c).parts.length > 1) (hp : p ∈ (v.store c).parts) :
    ((syncAngles v c).store p).angle = (v.store c).angle ∧
    ((syncAngles v c).store c).angle = (v.store c).angle := by
  unfold syncAngles
  rw [if_pos hc]
  have hstep : ∀ (u : World) (r : ℕ),
      (u.store c).angle = (v.store c).angle →
      (((setAngle u r ((u.store c).angle)).store c).angle = (v.store c).angle) := by
    intro u r hu
    rw [setAngle_angle]
    by_cases hrc : c = r
    · subst hrc; simp [hu]
    · simp [hrc, hu]
  refine foldl_mem_est
    (fun u => (u.store p).angle = (v.store c).angle ∧
      (u.store c).angle = (v.store c).angle)
    (fun u => (u.store c).angle = (v.store c).angle)
    (fun u r => setAngle u r ((u.store c).angle)) ((v.store c).parts) v p hp rfl
    (fun u r hu => hstep u r hu) ?_ ?_
  · intro u hu
    constructor
    · rw [setAngle_angle]
      simp [hu]
    · exact hstep u p hu
  · intro u r hu
    constructor
    · rw [setAngle_angle]
      by_cases hpr : p = r <;> simp [hpr, hu.1, hu.2]
    · exact hstep u r hu.2

/-- The post-step body action leaves the store exactly as the angle
synchronisation left it: the removal branch touches only the live list. -/
theorem afterBody_store_eq_sync (v : World) (c : ℕ) :
    (afterBody v c).store = (syncAngles v c).store := by
  unfold afterBody removeBody
  by_cases h : ((syncAngles v c).store c).label = "Block" ∧
      shockExceeds ((syncAngles v c).store c).shockAbsorbed
  · simp only [h, and_self, if_pos]
  · simp only [h, if_neg, not_false_iff]

/-- A body whose accumulated shock does not pass the test keeps the live
list unchanged through its own post-step processing. -/
theorem afterBody_alive_of_not_exceeds (v : World) (c : ℕ)
    (h : shockExceeds (v.store c).shockAbsorbed = false) :
    (afterBody v c).alive = v.alive := by
  unfold afterBody
  have h2 : shockExceeds ((syncAngles v c).store c).shockAbsorbed = false := by
    rw [eraseAngle_shockAbsorbed _ _ (syncAngles_eraseAngle v c c).1]
    exact h
  rw [if_neg (by rw [h2]; simp)]
  exact (syncAngles_eraseAngle v c c).2

/-- C4: a body labelled "Block" whose `shockAbsorbed` exceeds 500 when the
post-step hook runs is absent from the world after the pass completes. -/
theorem afterUpdate_removes_damaged_block (w : World) (bid : ℕ) (n : ℕ)
    (hbid : bid ∈ w.alive) (hlbl : (w.store bid).label = "Block")
    (hsh : (w.store bid).shockAbsorbed = some n) (hn : 500 < n) :
    bid ∉ (afterUpdate w).alive := by
  unfold afterUpdate
  refine foldl_mem_est
    (fun v => bid ∉ v.alive)
    (fun v => (v.store bid).label = "Block" ∧ (v.store bid).shockAbsorbed = some n)
    afterBody w.alive w bid hbid ⟨hlbl, hsh⟩ ?_ ?_ ?_
  · intro v c hv
    exact ⟨(eraseAngle_label _ _ (afterBody_eraseAngle v c bid)).trans hv.1,
      (eraseAngle_shockAbsorbed _ _ (afterBody_eraseAngle v c bid)).trans hv.2⟩
  · intro v hv
    apply afterBody_removes v bid hv.1
    rw [hv.2]
    simp [shockExceeds, hn]
  · intro v c hv
    exact afterBody_alive_mono v c bid hv

/-- C10: a body labelled "Block" whose `shockAbsorbed` was never
initialised survives the post-step pass: the JavaScript comparison
`undefined > 500` is false, so the hook does not remove it, and the field
stays uninitialised. -/
theorem afterUpdate_keeps_pristine_block (w : World) (bid : ℕ)
    (hbid : bid ∈ w.alive) (hlbl : (w.store bid).label = "Block")
    (hsh : (w.store bid).shockAbsorbed = none) :
    bid ∈ (afterUpdate w).alive ∧
    ((afterUpdate w).store bid).shockAbsorbed = none := by
  unfold afterUpdate
  refine foldl_pres
    (fun v => bid ∈ v.alive ∧ (v.store bid).shockAbsorbed = none)
    afterBody w.alive w ⟨hbid, hsh⟩ ?_
  intro v c hv
  have hsh2 : ((afterBody v c).store bid).shockAbsorbed = none :=
    (eraseAngle_shockAbsorbed _ _ (afterBody_eraseAngle v c bid)).trans hv.2
  refine ⟨?_, hsh2⟩
  by_cases hc : bid = c
  · subst hc
    rw [afterBody_alive_of_not_exceeds v bid (by rw [hv.2]; rfl)]
    exact hv.1
  · exact afterBody_alive_other v c bid hc hv.1

/-- C6: in a world whose top-level bodies each appear in their own parts
list and have pairwise disjoint parts lists (as matter.js guarantees), every
compound body — more than one part — emerges from the post-step pass with
all of its parts' angles equal to its own angle. -/
theorem afterUpdate_syncs_compound_angles (w : World) (bid : ℕ)
    (hbid : bid ∈ w.alive)
    (hcomp : (w.store bid).parts.length > 1)
    (hself : ∀ b, b ∈ w.alive → b ∈ (w.store b).parts)
    (hdisj : ∀ b, b ∈ w.alive → ∀ c, c ∈ w.alive → b ≠ c →
      ∀ p, p ∈ (w.store b).parts → p ∉ (w.store c).parts) :
    ∀ pid, pid ∈ (w.store bid).parts →
      ((afterUpdate w).store pid).angle = ((afterUpdate w).store bid).angle := by
  have hGpres : ∀ (v : World) (c : ℕ),
      (∀ q, (v.store q).parts = (w.store q).parts) →
      ∀ q, ((afterBody v c).store q).parts = (w.store q).parts := by
    intro v c hv q
    exact (eraseAngle_parts _ _ (afterBody_eraseAngle v c q)).trans (hv q)
  have hest : ∀ v : World, (∀ q, (v.store q).parts = (w.store q).parts) →
      ((∀ q, ((afterBody v bid).store q).parts = (w.store q).parts) ∧
        ∀ p, p ∈ (w.store bid).parts →
          ((afterBody v bid).store p).angle = ((afterBody v bid).store bid).angle) := by
    intro v hv
    refine ⟨hGpres v bid hv, ?_⟩
    intro p hp
    have hlen : (v.store bid).parts.length > 1 := by rw [hv bid]; exact hcomp
    have hsync := syncAngles_mem_angle v bid p hlen (by rw [hv bid]; exact hp)
    rw [afterBody_store_eq_sync v bid, hsync.1, hsync.2]
  have hPpres : ∀ (v : World) (c : ℕ), c ∈ w.alive →
      ((∀ q, (v.store q).parts = (w.store q).parts) ∧
        ∀ p, p ∈ (w.store bid).parts →
          (v.store p).angle = (v.store bid).angle) →
      ((∀ q, ((afterBody v c).store q).parts = (w.store q).parts) ∧
        ∀ p, p ∈ (w.store bid).parts →
          ((afterBody v c).store p).angle = ((afterBody v c).store bid).angle) := by
    intro v c hc hv
    by_cases hcb : c = bid
    · subst hcb
      exact hest v hv.1
    · refine ⟨hGpres v c hv.1, ?_⟩
      intro p hp
      have hkeep : ∀ q, q ∈ (w.store bid).parts → (afterBody v c).store q = v.store q := by
        intro q hq
        rw [afterBody_store_eq_sync v c]
        exact syncAngles_store_other v c q
          (by rw [hv.1 c]
              exact hdisj bid hbid c hc (fun hbc => hcb hbc.symm) q hq)
      rw [hkeep p hp, hkeep bid (hself bid hbid)]
      exact hv.2 p hp
  have hfinal := foldl_mem_est_mem
    (fun v => (∀ q, (v.store q).parts = (w.store q).parts) ∧
      ∀ p, p ∈ (w.store bid).parts → (v.store p).angle = (v.store bid).angle)
    (fun v => ∀ q, (v.store q).parts = (w.store q).parts)
    afterBody w.alive w bid hbid (fun q => rfl)
    (fun v c _ hv => hGpres v c hv) hest hPpres
  exact hfinal.2

/-- The post-step hook never touches a `velocityPrev`. -/
theorem afterUpdate_velocityPrev (v : World) (q : ℕ) :
    ((afterUpdate v).store q).velocityPrev = (v.store q).velocityPrev := by
  unfold afterUpdate
  exact foldl_pres
    (fun u => (u.store q).velocityPrev = (v.store q).velocityPrev)
    afterBody v.alive v rfl
    (fun u c hu =>
      (eraseAngle_velocityPrev _ _ (afterBody_eraseAngle u c q)).trans hu)

/-- C7: a part that the pre-step pass does not remove — here, any part that
fails the sleeping-"Projectile" test — leaves the pass with `velocityPrev`
equal to the velocity it held when the pass started, and that snapshot is
still in place after the engine's integration step, the collision hook and
the post-step hook have all run, i.e. until the next pre-step pass. -/
theorem velocityPrev_one_step_lag (w : World) (u : EngineUpdate)
    (pairs : List (ℕ × ℕ)) (bid pid : ℕ)
    (hbid : bid ∈ w.alive) (hpid : pid ∈ (w.store bid).parts)
    (hnot : ¬((w.store pid).label = "Projectile" ∧ (w.store pid).isSleeping = true)) :
    ((beforeUpdate w).store pid).velocityPrev = (w.store pid).velocity ∧
    ((afterUpdate (collisionStart (integrate u (beforeUpdate w)) pairs)).store
        pid).velocityPrev = (w.store pid).velocity := by
  have hRsp : ∀ (v : World) (r : ℕ),
      (v.store pid = w.store pid ∨
        v.store pid = { w.store pid with velocityPrev := (w.store pid).velocity }) →
      (stepPart v r).store pid = w.store pid ∨
        (stepPart v r).store pid =
          { w.store pid with velocityPrev := (w.store pid).velocity } := by
    intro v r hv
    rcases stepPart_store_cases v r pid with h | ⟨_, h⟩
    · rw [h]; exact hv
    · by_cases hpr : pid = r
      · rw [h, if_pos hpr]
        right
        rcases hv with h1 | h1 <;> rw [h1]
      · rw [h, if_neg hpr]; exact hv
  have hPsp : ∀ (v : World) (r : ℕ),
      v.store pid = { w.store pid with velocityPrev := (w.store pid).velocity } →
      (stepPart v r).store pid =
        { w.store pid with velocityPrev := (w.store pid).velocity } := by
    intro v r hv
    rcases hRsp v r (Or.inr hv) with h | h
    · rw [h]
      rcases stepPart_store_cases v r pid with h2 | ⟨_, h2⟩
      · rw [h2] at h
        rw [← h, hv]
      · by_cases hpr : pid = r
        · rw [h2, if_pos hpr] at h
          rw [← h, hv]
        · rw [h2, if_neg hpr] at h
          rw [← h, hv]
    · exact h
  have hestp : ∀ v : World,
      (v.store pid = w.store pid ∨
        v.store pid = { w.store pid with velocityPrev := (w.store pid).velocity }) →
      (stepPart v pid).store pid =
        { w.store pid with velocityPrev := (w.store pid).velocity } := by
    intro v hv
    have hcnd : ¬((v.store pid).label = "Projectile" ∧ (v.store pid).isSleeping) := by
      rcases hv with h1 | h1 <;> rw [h1] <;> exact fun hc => hnot ⟨hc.1, hc.2⟩
    unfold stepPart
    rw [if_neg hcnd]
    show Store.set v.store pid _ pid = _
    rw [Store.set_self]
    rcases hv with h1 | h1 <;> rw [h1]
  have hfirst : (beforeUpdate w).store pid =
      { w.store pid with velocityPrev := (w.store pid).velocity } := by
    unfold beforeUpdate
    have hbody := foldl_mem_est
      (fun v => v.store pid =
        { w.store pid with velocityPrev := (w.store pid).velocity })
      (fun v => (v.store bid).parts = (w.store bid).parts ∧
        (v.store pid = w.store pid ∨
          v.store pid = { w.store pid with velocityPrev := (w.store pid).velocity }))
      stepBody w.alive w bid hbid ⟨rfl, Or.inl rfl⟩ ?_ ?_ ?_
    · exact hbody
    · intro v c hv
      refine foldl_pres
        (fun x => (x.store bid).parts = (w.store bid).parts ∧
          (x.store pid = w.store pid ∨
            x.store pid = { w.store pid with velocityPrev := (w.store pid).velocity }))
        stepPart ((v.store c).parts) v hv ?_
      intro x r hx
      exact ⟨(stepPart_parts x r bid).trans hx.1, hRsp x r hx.2⟩
    · intro v hv
      unfold stepBody
      rw [hv.1]
      exact foldl_mem_est
        (fun x => x.store pid =
          { w.store pid with velocityPrev := (w.store pid).velocity })
        (fun x => x.store pid = w.store pid ∨
          x.store pid = { w.store pid with velocityPrev := (w.store pid).velocity })
        stepPart ((w.store bid).parts) v pid hpid hv.2 hRsp hestp hPsp
    · intro v c hv
      exact foldl_pres
        (fun x => x.store pid =
          { w.store pid with velocityPrev := (w.store pid).velocity })
        stepPart ((v.store c).parts) v hv hPsp
  constructor
  · rw [hfirst]
  · rw [afterUpdate_velocityPrev]
    have hcoll : ((collisionStart (integrate u (beforeUpdate w)) pairs).store
        pid).velocityPrev = ((integrate u (beforeUpdate w)).store pid).velocityPrev :=
      eraseShock_velocityPrev _ _
        (collide_foldl_eraseShock pairs (integrate u (beforeUpdate w)).store pid)
    rw [hcoll]
    show ((beforeUpdate w).store pid).velocityPrev = (w.store pid).velocity
    rw [hfirst]

/-- The demonstration pair (mass 2 at velocityPrev (3,0) against mass 1 at
rest) has floored shock magnitude 6. -/
theorem demo_pairMag : pairMag demoWorld.store 0 1 = 6 := by
  show pairMag demoStore 0 1 = 6
  simp [pairMag, demoStore, baseBody, floorMag, Vec.mult, Vec.sub]
  norm_num [Int.floor_ofNat, Int.toNat_ofNat]
  simp [Nat.sqrt, Nat.sqrt.iter]

/-- Witness for C1 at the demonstration world. -/
theorem collisionStart_compounding_witness :
    (((collisionStart demoWorld [(0, 1)]).store 0).shockAbsorbed = some 6 ∧
     ((collisionStart demoWorld [(0, 1)]).store 2).shockAbsorbed = some 6) ∧
    ((collisionStart (collisionStart demoWorld [(0, 1)]) [(0, 1)]).store 0).shockAbsorbed
      = some 12 ∧
    ((collisionStart (collisionStart demoWorld [(0, 1)]) [(0, 1)]).store 2).shockAbsorbed
      = some 18 ∧
    ((collisionStart (collisionStart demoWorld [(0, 1)]) [(0, 1)]).store 1).shockAbsorbed
      = some 12 ∧
    ((collisionStart (collisionStart demoWorld [(0, 1)]) [(0, 1)]).store 3).shockAbsorbed
      = some 18 :=
  collisionStart_compounding demoWorld 0 1 2 3 (by decide) (by decide) (by decide)
    (by decide) (by decide) (by decide) (by decide) (by decide) (by decide)
    (by decide) (by decide) (by decide) demo_pairMag

/-- Witness for C2 at the demonstration world. -/
theorem collisionStart_first_collision_witness :
    pairMag demoWorld.store 0 1 = 6 ∧
    ((collisionStart demoWorld [(0, 1)]).store 0).shockAbsorbed = some 6 ∧
    ((collisionStart demoWorld [(0, 1)]).store 1).shockAbsorbed = some 6 ∧
    ((collisionStart demoWorld [(0, 1)]).store 2).shockAbsorbed = some 6 ∧
    ((collisionStart demoWorld [(0, 1)]).store 3).shockAbsorbed = some 6 :=
  collisionStart_first_collision demoWorld 0 1 2 3 (by decide) (by decide)
    (by decide) (by decide) (by decide) (by decide) (by decide) (by decide)
    (by decide) (by decide) (by decide) (by decide) (by decide) (by decide)
    (by decide) (by decide) (by decide) (by decide)

/-- Witness for C3 at the self-parent demonstration world. -/
theorem collisionStart_self_parent_witness :
    ((collisionStart selfWorld [(0, 1)]).store 0).shockAbsorbed
      = some (2 * (0 + pairMag selfWorld.store 0 1)) ∧
    ((collisionStart selfWorld [(1, 0)]).store 0).shockAbsorbed
      = some (2 * (0 + pairMag selfWorld.store 1 0)) :=
  collisionStart_self_parent selfWorld 0 1 0 (by decide) (by decide) (by decide)
    (by decide)

/-- Witness for C4 at the post-step demonstration world. -/
theorem afterUpdate_removes_damaged_block_witness :
    0 ∉ (afterUpdate postWorld).alive :=
  afterUpdate_removes_damaged_block postWorld 0 501 (by decide) (by decide)
    (by decide) (by decide)

/-- Witness for C5 at the pre-step demonstration world. -/
theorem beforeUpdate_removes_sleeping_projectile_witness :
    0 ∉ (beforeUpdate preWorld).alive ∧
    (beforeUpdate preWorld).store 0 = preWorld.store 0 :=
  beforeUpdate_removes_sleeping_projectile preWorld 0 0 (by decide) (by decide)
    (by decide) (by decide)

/-- Witness for C6 at the post-step demonstration world: parts 1 and 2 of
compound body 0 end the pass at body 0's angle. -/
theorem afterUpdate_syncs_compound_angles_witness :
    ((afterUpdate postWorld).store 1).angle = ((afterUpdate postWorld).store 0).angle ∧
    ((afterUpdate postWorld).store 2).angle = ((afterUpdate postWorld).store 0).angle :=
  ⟨afterUpdate_syncs_compound_angles postWorld 0 (by decide) (by decide)
      (by decide) (by decide) 1 (by decide),
    afterUpdate_syncs_compound_angles postWorld 0 (by decide) (by decide)
      (by decide) (by decide) 2 (by decide)⟩

/-- Witness for C7 at the pre-step demonstration world. -/
theorem velocityPrev_one_step_lag_witness :
    ((beforeUpdate preWorld).store 1).velocityPrev = (preWorld.store 1).velocity ∧
    ((afterUpdate (collisionStart (integrate demoUpdate (beforeUpdate preWorld))
        [(0, 1)])).store 1).velocityPrev = (preWorld.store 1).velocity :=
  velocityPrev_one_step_lag preWorld demoUpdate [(0, 1)] 1 1 (by decide)
    (by decide) (by decide)

/-- Witness for C8 at the one-static demonstration store. -/
theorem pairMag_one_static_witness :
    pairMag staticStore 0 1
      = floorMag (Vec.mult (staticStore 1).velocityPrev (staticStore 1).mass) ∧
    pairMag staticStore 1 0
      = floorMag (Vec.mult (staticStore 1).velocityPrev (staticStore 1).mass) :=
  pairMag_one_static staticStore 0 1 (by decide) (by decide)

/-- Witness for C9 at the demonstration world: id 5 is neither a member of
the pair nor a parent. -/
theorem collisionStart_frame_witness :
    (collisionStart demoWorld [(0, 1)]).alive = demoWorld.alive ∧
    ((collisionStart demoWorld [(0, 1)]).store 0).eraseShock
      = (demoWorld.store 0).eraseShock ∧
    (collisionStart demoWorld [(0, 1)]).store 5 = demoWorld.store 5 :=
  ⟨(collisionStart_frame demoWorld [(0, 1)] 5 (by decide)).1,
    (collisionStart_frame demoWorld [(0, 1)] 5 (by decide)).2.1 0,
    (collisionStart_frame demoWorld [(0, 1)] 5 (by decide)).2.2⟩

/-- Witness for C10 at the post-step demonstration world. -/
theorem afterUpdate_keeps_pristine_block_witness :
    3 ∈ (afterUpdate postWorld).alive ∧
    ((afterUpdate postWorld).store 3).shockAbsorbed = none :=
  afterUpdate_keeps_pristine_block postWorld 3 (by decide) (by decide) (by decide)

/-- Adequacy of `floorMag`: it computes exactly
`Math.floor(Math.sqrt(x² + y²))`, the floor of the real euclidean magnitude
of the vector (for exact rational coordinates). -/
theorem floorMag_eq_floor_sqrt (v : Vec) :
    (floorMag v : ℤ) = ⌊Real.sqrt ((v.x : ℝ) ^ 2 + (v.y : ℝ) ^ 2)⌋ := by
  have hq0 : (0 : ℚ) ≤ v.x ^ 2 + v.y ^ 2 := by positivity
  have hcast : ((v.x ^ 2 + v.y ^ 2 : ℚ) : ℝ) = (v.x : ℝ) ^ 2 + (v.y : ℝ) ^ 2 := by
    push_cast
    ring
  rw [← hcast]
  set q : ℚ := v.x ^ 2 + v.y ^ 2 with hqdef
  set n : ℕ := ⌊q⌋.toNat with hndef
  have hfl0 : (0 : ℤ) ≤ ⌊q⌋ := Int.floor_nonneg.mpr hq0
  have hcastn : ((n : ℤ)) = ⌊q⌋ := Int.toNat_of_nonneg hfl0
  have hnq : ((n : ℚ)) ≤ q := by
    have h := Int.floor_le q
    rw [← hcastn] at h
    exact_mod_cast h
  have hqn : q < (n : ℚ) + 1 := by
    have h := Int.lt_floor_add_one q
    rw [← hcastn] at h
    exact_mod_cast h
  have hlow : ((Nat.sqrt n : ℝ)) ≤ Real.sqrt (q : ℝ) :=
    le_trans Real.nat_sqrt_le_real_sqrt (Real.sqrt_le_sqrt (by exact_mod_cast hnq))
  have hup : Real.sqrt (q : ℝ) < (Nat.sqrt n : ℝ) + 1 := by
    rw [Real.sqrt_lt' (by positivity)]
    have h1 : (q : ℝ) < (n : ℝ) + 1 := by exact_mod_cast hqn
    have h2 : ((n : ℝ)) + 1 ≤ ((Nat.sqrt n : ℝ) + 1) ^ 2 := by
      exact_mod_cast Nat.succ_le_succ_sqrt' n
    exact lt_of_lt_of_le h1 h2
  show ((Nat.sqrt n : ℤ)) = ⌊Real.sqrt (q : ℝ)⌋
  symm
  rw [Int.floor_eq_iff]
  exact ⟨by exact_mod_cast hlow, by exact_mod_cast hup⟩

end Game
